import Mathlib

/-!
Shallow embedding of the VIN clip-selection and capture code.

Times are modelled as exact rationals.  The selection state of the
VideoPlayer component is the triple of its three React state variables
selectionStart, selectionEnd and videoDuration; every selection-range
mutation of the component is embedded as a pure function on that triple,
translated line by line from the source handlers.
-/

namespace Vin

/-- The maximum selection span: the constant 90 used throughout the source. -/
def maxSpan : ℚ := 90

/-- One frame interval at the assumed 30 fps, the floor used by the keyboard
nudge clamps in handleKeyDown. -/
def minSpan : ℚ := 1 / 30

/-- The VideoPlayer selection state: selectionStart, selectionEnd and
videoDuration (all React useState variables of the component). -/
structure RangeState where
  selectionStart : ℚ
  selectionEnd : ℚ
  videoDuration : ℚ
deriving DecidableEq

/-- From handleHandleDrag: the pointer position converted to a time value,
Math.max(0, Math.min(videoDuration, (mouseX / timelineWidth) * videoDuration)).
The unclamped product is the parameter x. -/
def dragTime (s : RangeState) (x : ℚ) : ℚ :=
  max 0 (min s.videoDuration x)

/-- handleHandleDrag, branch draggingHandle === 'start':
newStart = Math.min(time, selectionEnd - 1); if (newEnd - newStart > 90)
newStart = newEnd - 90. -/
def dragStartHandle (s : RangeState) (x : ℚ) : RangeState :=
  let time := dragTime s x
  let newStart0 := min time (s.selectionEnd - 1)
  let newStart :=
    if s.selectionEnd - newStart0 > maxSpan then s.selectionEnd - maxSpan else newStart0
  { s with selectionStart := newStart }

/-- handleHandleDrag, branch draggingHandle === 'end':
newEnd = Math.max(time, selectionStart + 1); if (newEnd - newStart > 90)
newEnd = newStart + 90. -/
def dragEndHandle (s : RangeState) (x : ℚ) : RangeState :=
  let time := dragTime s x
  let newEnd0 := max time (s.selectionStart + 1)
  let newEnd :=
    if newEnd0 - s.selectionStart > maxSpan then s.selectionStart + maxSpan else newEnd0
  { s with selectionEnd := newEnd }

/-- handleHandleDrag, branch draggingHandle === 'frame': the whole frame is
shifted; offsetTerm models (dragStartX - timelineRect.left) / timelineWidth *
videoDuration, an arbitrary rational.  newFrameStart = Math.max(0,
Math.min(videoDuration - frameWidth, time - offsetTerm)). -/
def dragFrame (s : RangeState) (x offsetTerm : ℚ) : RangeState :=
  let time := dragTime s x
  let frameWidth := s.selectionEnd - s.selectionStart
  let newFrameStart := max 0 (min (s.videoDuration - frameWidth) (time - offsetTerm))
  { s with selectionStart := newFrameStart, selectionEnd := newFrameStart + frameWidth }

/-- handleKeyDown without shift: nudge the start handle by amt (1 second for
arrow keys, 1/30 for comma and period).
newStart = Math.min(selectionEnd - 1/30, Math.max(0, selectionStart + amt));
if (selectionEnd - newStart > 90) newStart = selectionEnd - 90. -/
def nudgeStart (s : RangeState) (amt : ℚ) : RangeState :=
  let newStart0 := min (s.selectionEnd - 1 / 30) (max 0 (s.selectionStart + amt))
  let newStart :=
    if s.selectionEnd - newStart0 > maxSpan then s.selectionEnd - maxSpan else newStart0
  { s with selectionStart := newStart }

/-- handleKeyDown with shift: nudge the end handle by amt.
newEnd = Math.max(selectionStart + 1/30, Math.min(videoDuration, selectionEnd + amt));
if (newEnd - selectionStart > 90) newEnd = selectionStart + 90. -/
def nudgeEnd (s : RangeState) (amt : ℚ) : RangeState :=
  let newEnd0 := max (s.selectionStart + 1 / 30) (min s.videoDuration (s.selectionEnd + amt))
  let newEnd :=
    if newEnd0 - s.selectionStart > maxSpan then s.selectionStart + maxSpan else newEnd0
  { s with selectionEnd := newEnd }

/-- The useEffect keyed on videoDuration: when the duration changes to d, and
d is positive, clamp end to the duration, then start down to end, then move
start forward if the span exceeds 90, then clamp start up to 0.  With d not
positive the effect body is skipped and only the duration changes. -/
def setDurationReclamp (s : RangeState) (d : ℚ) : RangeState :=
  if d > 0 then
    let newEnd := if s.selectionEnd > d then d else s.selectionEnd
    let newStart0 := if s.selectionStart > newEnd then newEnd else s.selectionStart
    let newStart1 := if newEnd - newStart0 > maxSpan then newEnd - maxSpan else newStart0
    let newStart2 := if newStart1 < 0 then 0 else newStart1
    ⟨newStart2, newEnd, d⟩
  else
    { s with videoDuration := d }

/-- The selection-range mutations performed by the program: the three pointer
drag modes of handleHandleDrag, the two keyboard nudges of handleKeyDown, and
the duration-change re-clamp effect. -/
inductive Mutation
  | dragStartH (x : ℚ)
  | dragEndH (x : ℚ)
  | dragFrameH (x offsetTerm : ℚ)
  | nudgeStartK (amt : ℚ)
  | nudgeEndK (amt : ℚ)
  | setDuration (d : ℚ)

/-- Dispatch one mutation to the handler translated from the source. -/
def applyMutation (s : RangeState) : Mutation → RangeState
  | .dragStartH x => dragStartHandle s x
  | .dragEndH x => dragEndHandle s x
  | .dragFrameH x offsetTerm => dragFrame s x offsetTerm
  | .nudgeStartK amt => nudgeStart s amt
  | .nudgeEndK amt => nudgeEnd s amt
  | .setDuration d => setDurationReclamp s d

/-- Apply a sequence of mutations in order. -/
def applyMutations (s : RangeState) (ms : List Mutation) : RangeState :=
  ms.foldl applyMutation s

/-- The spec invariant for a selection range: within bounds, span at most
maxSpan and at least minSpan. -/
def ValidRange (s : RangeState) : Prop :=
  0 ≤ s.selectionStart ∧ s.selectionStart ≤ s.selectionEnd ∧
    s.selectionEnd ≤ s.videoDuration ∧ s.selectionEnd - s.selectionStart ≤ maxSpan ∧
    minSpan ≤ s.selectionEnd - s.selectionStart

instance : DecidablePred ValidRange := fun s => by
  unfold ValidRange
  infer_instance

/-- Validity with the one-second floor that the drag handlers enforce. -/
def StrongValid (s : RangeState) : Prop :=
  0 ≤ s.selectionStart ∧ s.selectionStart + 1 ≤ s.selectionEnd ∧
    s.selectionEnd ≤ s.videoDuration ∧ s.selectionEnd - s.selectionStart ≤ maxSpan

instance : DecidablePred StrongValid := fun s => by
  unfold StrongValid
  infer_instance

/-- The part of the invariant that survives one mutation: bounds and the
maxSpan cap, with no lower bound on the span. -/
def WeakInvariant (s : RangeState) : Prop :=
  0 ≤ s.selectionStart ∧ s.selectionStart ≤ s.selectionEnd ∧
    s.selectionEnd ≤ s.videoDuration ∧ s.selectionEnd - s.selectionStart ≤ maxSpan

instance : DecidablePred WeakInvariant := fun s => by
  unfold WeakInvariant
  infer_instance

/-- Side condition of a mutation: a duration change carries a positive new
duration; the other mutations have none. -/
def mutationOK : Mutation → Prop
  | .setDuration d => 0 < d
  | _ => True

theorem dragStartHandle_weak (s : RangeState) (x : ℚ) (hs : StrongValid s) :
    WeakInvariant (dragStartHandle s x) := by
  obtain ⟨h0, h1, h2, h3⟩ := hs
  simp only [maxSpan] at h3
  have hd0 : (0 : ℚ) ≤ s.videoDuration := by linarith
  have ht0 : 0 ≤ dragTime s x := le_max_left _ _
  have ha1 : min (dragTime s x) (s.selectionEnd - 1) ≤ s.selectionEnd - 1 := min_le_right _ _
  have ha0 : 0 ≤ min (dragTime s x) (s.selectionEnd - 1) := le_min ht0 (by linarith)
  simp only [dragStartHandle, WeakInvariant, maxSpan]
  split_ifs with h
  · exact ⟨by linarith, by linarith, h2, by linarith⟩
  · exact ⟨ha0, by linarith, h2, by linarith⟩

theorem dragEndHandle_weak (s : RangeState) (x : ℚ) (hs : StrongValid s) :
    WeakInvariant (dragEndHandle s x) := by
  obtain ⟨h0, h1, h2, h3⟩ := hs
  simp only [maxSpan] at h3
  have hd0 : (0 : ℚ) ≤ s.videoDuration := by linarith
  have htd : dragTime s x ≤ s.videoDuration := max_le hd0 (min_le_left _ _)
  have hb1 : s.selectionStart + 1 ≤ max (dragTime s x) (s.selectionStart + 1) := le_max_right _ _
  have hbd : max (dragTime s x) (s.selectionStart + 1) ≤ s.videoDuration :=
    max_le htd (by linarith)
  simp only [dragEndHandle, WeakInvariant, maxSpan]
  split_ifs with h
  · exact ⟨h0, by linarith, by linarith, by linarith⟩
  · exact ⟨h0, by linarith, hbd, by linarith⟩

theorem dragFrame_weak (s : RangeState) (x offsetTerm : ℚ) (hs : StrongValid s) :
    WeakInvariant (dragFrame s x offsetTerm) := by
  obtain ⟨h0, h1, h2, h3⟩ := hs
  simp only [maxSpan] at h3
  have hw0 : (0 : ℚ) ≤ s.selectionEnd - s.selectionStart := by linarith
  have hwd : s.selectionEnd - s.selectionStart ≤ s.videoDuration := by linarith
  have hf0 : 0 ≤ max 0 (min (s.videoDuration - (s.selectionEnd - s.selectionStart))
      (dragTime s x - offsetTerm)) := le_max_left _ _
  have hfd : max 0 (min (s.videoDuration - (s.selectionEnd - s.selectionStart))
      (dragTime s x - offsetTerm)) ≤ s.videoDuration - (s.selectionEnd - s.selectionStart) :=
    max_le (by linarith) (min_le_left _ _)
  simp only [dragFrame, WeakInvariant, maxSpan]
  exact ⟨hf0, by linarith, by linarith, by linarith⟩

theorem nudgeStart_weak (s : RangeState) (amt : ℚ) (hs : StrongValid s) :
    WeakInvariant (nudgeStart s amt) := by
  obtain ⟨h0, h1, h2, h3⟩ := hs
  simp only [maxSpan] at h3
  have ha1 : min (s.selectionEnd - 1 / 30) (max 0 (s.selectionStart + amt)) ≤
      s.selectionEnd - 1 / 30 := min_le_left _ _
  have ha0 : 0 ≤ min (s.selectionEnd - 1 / 30) (max 0 (s.selectionStart + amt)) :=
    le_min (by linarith) (le_max_left _ _)
  simp only [nudgeStart, WeakInvariant, maxSpan]
  split_ifs with h
  · exact ⟨by linarith, by linarith, h2, by linarith⟩
  · exact ⟨ha0, by linarith, h2, by linarith⟩

theorem nudgeEnd_weak (s : RangeState) (amt : ℚ) (hs : StrongValid s) :
    WeakInvariant (nudgeEnd s amt) := by
  obtain ⟨h0, h1, h2, h3⟩ := hs
  simp only [maxSpan] at h3
  have hb1 : s.selectionStart + 1 / 30 ≤
      max (s.selectionStart + 1 / 30) (min s.videoDuration (s.selectionEnd + amt)) :=
    le_max_left _ _
  have hbd : max (s.selectionStart + 1 / 30) (min s.videoDuration (s.selectionEnd + amt)) ≤
      s.videoDuration := max_le (by linarith) (min_le_left _ _)
  simp only [nudgeEnd, WeakInvariant, maxSpan]
  split_ifs with h
  · exact ⟨h0, by linarith, by linarith, by linarith⟩
  · exact ⟨h0, by linarith, hbd, by linarith⟩

theorem setDurationReclamp_weak (s : RangeState) (d : ℚ) (hs : StrongValid s) (hd : 0 < d) :
    WeakInvariant (setDurationReclamp s d) := by
  obtain ⟨h0, h1, h2, h3⟩ := hs
  simp only [maxSpan] at h3
  simp only [setDurationReclamp, WeakInvariant, maxSpan]
  rw [if_pos hd]
  split_ifs <;> refine ⟨?_, ?_, ?_, ?_⟩ <;> dsimp only <;> linarith

/-- C1: amended.  From a range satisfying the invariants with the one-second
floor the drag handlers enforce, each single mutation of the program (with a
positive new duration for a re-clamp) yields a range satisfying
0 ≤ start ≤ end ≤ duration and end − start ≤ maxSpan.  The lower bound
minSpan ≤ end − start is not preserved: see the counterexample. -/
theorem range_mutation_invariants (s : RangeState) (m : Mutation)
    (hs : StrongValid s) (hm : mutationOK m) :
    WeakInvariant (applyMutation s m) := by
  cases m with
  | dragStartH x => exact dragStartHandle_weak s x hs
  | dragEndH x => exact dragEndHandle_weak s x hs
  | dragFrameH x offsetTerm => exact dragFrame_weak s x offsetTerm hs
  | nudgeStartK amt => exact nudgeStart_weak s amt hs
  | nudgeEndK amt => exact nudgeEnd_weak s amt hs
  | setDuration d => exact setDurationReclamp_weak s d hs hm

/-- Witness for the C1 theorem at a concrete state and mutation. -/
theorem range_mutation_invariants_witness :
    WeakInvariant (applyMutation ⟨0, 90, 100⟩ (.dragStartH 20)) :=
  range_mutation_invariants ⟨0, 90, 100⟩ (.dragStartH 20)
    (by refine ⟨by norm_num, by norm_num, by norm_num, ?_⟩; norm_num [maxSpan]) trivial

/-- C1: counterexample.  The range (start 10, end 95, duration 100) satisfies
all the claimed invariants, yet the single mutation that re-clamps after the
duration shrinks to 5 produces start = end = 5, whose span 0 is below the
minSpan floor. -/
theorem range_invariant_counterexample :
    ValidRange ⟨10, 95, 100⟩ ∧
      (applyMutations ⟨10, 95, 100⟩ [.setDuration 5]).selectionEnd -
        (applyMutations ⟨10, 95, 100⟩ [.setDuration 5]).selectionStart < minSpan := by
  constructor
  · refine ⟨by norm_num, by norm_num, by norm_num, ?_, ?_⟩ <;> norm_num [maxSpan, minSpan]
  · norm_num [applyMutations, applyMutation, setDurationReclamp, maxSpan, minSpan]

theorem ite_gt_eq_min (a b : ℚ) : (if a > b then b else a) = min a b := by
  rw [min_def]
  split_ifs <;> first | rfl | linarith

theorem ite_gt_sub_eq_max (a e c : ℚ) : (if e - a > c then e - c else a) = max a (e - c) := by
  rw [max_def]
  split_ifs <;> first | rfl | linarith

theorem ite_lt_zero_eq_max (a : ℚ) : (if a < 0 then 0 else a) = max a 0 := by
  rw [max_def]
  split_ifs <;> first | rfl | linarith

/-- Amended from the spec: the order the duration re-clamp actually applies is
clamp end down to the duration, clamp start down to end, move start forward to
keep the span at most maxSpan, then clamp start up to 0.  The source has no
step restoring a minSpan floor. -/
def reclampOrderSpec (s : RangeState) (d : ℚ) : RangeState :=
  let e1 := min s.selectionEnd d
  let s1 := min s.selectionStart e1
  let s2 := max s1 (e1 - maxSpan)
  ⟨max s2 0, e1, d⟩

/-- C2: amended.  For a positive new duration the re-clamp effect is exactly
the four-stage clamp order above (with no minSpan stage), and on the spec
example start 10, end 95, new duration 50 it yields start = 10 and end = 50,
not start = 0. -/
theorem reclamp_fixed_order (s : RangeState) (d : ℚ) (hd : 0 < d) :
    setDurationReclamp s d = reclampOrderSpec s d ∧
      setDurationReclamp ⟨10, 95, 100⟩ 50 = ⟨10, 50, 50⟩ := by
  constructor
  · simp only [setDurationReclamp, reclampOrderSpec, if_pos hd]
    rw [ite_gt_eq_min s.selectionEnd d,
      ite_gt_eq_min s.selectionStart (min s.selectionEnd d),
      ite_gt_sub_eq_max, ite_lt_zero_eq_max]
  · norm_num [setDurationReclamp, maxSpan]

/-- Witness for the C2 theorem at the spec example input. -/
theorem reclamp_fixed_order_witness :
    setDurationReclamp ⟨10, 95, 100⟩ 50 = ⟨10, 50, 50⟩ :=
  (reclamp_fixed_order ⟨10, 95, 100⟩ 50 (by norm_num)).2

/-- C2: counterexample.  On the spec example (start 10, end 95, new duration
50) the re-clamp yields start = 10, which is strictly positive, not the
start = 0 the claim asserts. -/
theorem reclamp_example_counterexample :
    (setDurationReclamp ⟨10, 95, 100⟩ 50).selectionStart = 10 ∧
      (0 : ℚ) < (setDurationReclamp ⟨10, 95, 100⟩ 50).selectionStart := by
  norm_num [setDurationReclamp, maxSpan]

/-- generateThumbnails in the overview VideoPlayer component: numThumbnails. -/
def numThumbnails : ℕ := 5

/-- The overview sampling offsets, from Array.from with length numThumbnails:
position i is i * (video.duration / (numThumbnails + 1)), for i = 0..4. -/
def thumbnailPositions (duration : ℚ) : List ℚ :=
  (List.range numThumbnails).map fun i : ℕ =>
    (i : ℚ) * (duration / ((numThumbnails : ℚ) + 1))

/-- Modelled from the spec claim, for comparison only: offsets
i * duration/(N+1) for i = 1..N, all strictly inside the open interval. -/
def overviewOffsetsSpec (duration : ℚ) : List ℚ :=
  (List.range numThumbnails).map fun i : ℕ =>
    ((i : ℚ) + 1) * (duration / ((numThumbnails : ℚ) + 1))

/-- C3: counterexample.  For a 100-second source the first offset the code
samples is 0, the exact left endpoint, while the claim's first offset
1 * 100/6 = 50/3 is strictly positive: the code list starts at the endpoint
the claim excludes. -/
theorem overview_offsets_counterexample :
    (thumbnailPositions 100).getD 0 1 = 0 ∧
      (overviewOffsetsSpec 100).getD 0 0 = 50 / 3 ∧ (0 : ℚ) < 50 / 3 := by
  rw [thumbnailPositions, overviewOffsetsSpec,
    show List.range numThumbnails = [0, 1, 2, 3, 4] from rfl]
  simp only [List.map_cons, List.map_nil, List.getD_cons_zero]
  push_cast [numThumbnails]
  norm_num

/-- C3: amended.  Overview sampling chooses 5 offsets i * duration/6 for
i = 0..4: evenly spaced with step duration/6, but starting at offset 0 (the
left endpoint included, the right end approached only up to 2*duration/3);
for a 100-second source the offsets are 0, 50/3, 100/3, 50 and 200/3. -/
theorem overview_offsets_amended (duration : ℚ) :
    thumbnailPositions duration =
      [0, duration / 6, duration / 3, duration / 2, 2 * duration / 3] := by
  rw [thumbnailPositions, show List.range numThumbnails = [0, 1, 2, 3, 4] from rfl]
  simp only [List.map_cons, List.map_nil, List.cons.injEq, and_true]
  push_cast [numThumbnails]
  refine ⟨by ring, by ring, by ring, by ring, by ring⟩

/-- generateThumbnails in the embedded App component: numThumbnails is
Math.max(1, Math.floor(duration / 10)) where duration = end - start. -/
def previewCount (startT endT : ℚ) : ℤ :=
  max 1 ⌊(endT - startT) / 10⌋

/-- The range-preview offsets: start + ((i + 0.5) * duration) / numThumbnails
for i = 0..numThumbnails-1. -/
def previewPositions (startT endT : ℚ) : List ℚ :=
  (List.range (previewCount startT endT).toNat).map fun i : ℕ =>
    startT + (((i : ℚ) + 1 / 2) * (endT - startT)) / (previewCount startT endT : ℚ)

/-- Modelled from the spec, for comparison: offset_i = start +
(i + 0.5) * (span / count) for i = 0..count-1 with count = max(1, floor(span/10)). -/
def previewOffsetsSpec (startT endT : ℚ) : List ℚ :=
  (List.range (previewCount startT endT).toNat).map fun i : ℕ =>
    startT + ((i : ℚ) + 1 / 2) * ((endT - startT) / (previewCount startT endT : ℚ))

/-- C4: confirmed.  The code's range-preview offsets agree with the spec's
formula start + (i+0.5) * span/count for every range, and the selection from
10 to 40 (span 30) yields count 3 and offsets 15, 25, 35. -/
theorem preview_offsets_correct :
    (∀ startT endT : ℚ, previewPositions startT endT = previewOffsetsSpec startT endT) ∧
      previewPositions 10 40 = [15, 25, 35] ∧ (previewPositions 10 40).length = 3 := by
  have hfloor : (⌊((40 : ℚ) - 10) / 10⌋ : ℤ) = 3 := by
    rw [Int.floor_eq_iff]
    norm_num
  have hc : previewCount 10 40 = 3 := by
    rw [previewCount, hfloor]
    decide
  have hlist : previewPositions 10 40 = [15, 25, 35] := by
    rw [previewPositions, hc, show ((3 : ℤ)).toNat = 3 from rfl,
      show List.range 3 = [0, 1, 2] from rfl]
    simp only [List.map_cons, List.map_nil, List.cons.injEq, and_true]
    push_cast
    norm_num
  refine ⟨?_, hlist, by rw [hlist]; rfl⟩
  intro startT endT
  rw [previewPositions, previewOffsetsSpec]
  refine List.map_congr_left ?_
  intro i _
  rw [mul_div_assoc]

/-- C5: counterexample.  From the range with start 0 and end 10, dragging the
start handle to time 10 (past end - minSpan = 10 - 1/30) yields start = 9,
strictly below end - minSpan, not equal to it: the drag floor is one second,
not one frame. -/
theorem start_clamp_counterexample :
    (dragStartHandle ⟨0, 10, 100⟩ 10).selectionStart = 9 ∧ (9 : ℚ) < 10 - minSpan := by
  constructor
  · norm_num [dragStartHandle, dragTime, maxSpan, min_def, max_def]
  · norm_num [minSpan]

/-- C5: amended.  Dragging the start handle past selectionEnd - 1 clamps start
to exactly selectionEnd - 1 (the drag handlers enforce a one-second floor),
while a keyboard nudge of the start handle past selectionEnd - 1/30 clamps it
to exactly selectionEnd - 1/30 (the one-frame floor); neither overshoots. -/
theorem start_clamp_floors :
    (∀ (s : RangeState) (x : ℚ), s.selectionEnd - 1 ≤ dragTime s x →
      (dragStartHandle s x).selectionStart = s.selectionEnd - 1) ∧
      (∀ (s : RangeState) (amt : ℚ),
        s.selectionEnd - 1 / 30 ≤ max 0 (s.selectionStart + amt) →
        (nudgeStart s amt).selectionStart = s.selectionEnd - 1 / 30) := by
  constructor
  · intro s x h
    have hcond : ¬ s.selectionEnd - (s.selectionEnd - 1) > maxSpan := by
      intro hh
      simp only [maxSpan] at hh
      linarith
    simp only [dragStartHandle, min_eq_right h, if_neg hcond]
  · intro s amt h
    have hcond : ¬ s.selectionEnd - (s.selectionEnd - 1 / 30) > maxSpan := by
      intro hh
      simp only [maxSpan] at hh
      linarith
    simp only [nudgeStart, min_eq_left h, if_neg hcond]

/-- Witness for the C5 theorem: concrete drag and nudge past the floors. -/
theorem start_clamp_floors_witness :
    (dragStartHandle ⟨0, 10, 100⟩ 50).selectionStart = (10 : ℚ) - 1 ∧
      (nudgeStart ⟨9, 10, 100⟩ 5).selectionStart = (10 : ℚ) - 1 / 30 :=
  ⟨start_clamp_floors.1 ⟨0, 10, 100⟩ 50 (by norm_num [dragTime, min_def, max_def]),
    start_clamp_floors.2 ⟨9, 10, 100⟩ 5 (by norm_num [max_def])⟩

/-- mediaRecorder.ondataavailable in DownloadOptions: the handler pushes
event.data onto the accumulated chunks only when its size is positive.  A
chunk is modelled as its byte sequence. -/
def ondataavailable (chunks : List (List ℕ)) (data : List ℕ) : List (List ℕ) :=
  if data.length > 0 then chunks ++ [data] else chunks

/-- Outcome of mediaRecorder.onstop: either the empty-capture failure or a
completed job carrying the assembled artifact. -/
inductive StopOutcome
  | failedEmptyCapture
  | done (artifact : List ℕ)
deriving DecidableEq

/-- mediaRecorder.onstop: with zero accumulated chunks it resets progress and
alerts without building a blob; otherwise it assembles one blob from all
chunks, publishes its URL and sets progress 100. -/
def onstopResult (chunks : List (List ℕ)) : StopOutcome :=
  if chunks.length = 0 then .failedEmptyCapture else .done chunks.flatten

theorem ondataavailable_pos (events acc : List (List ℕ))
    (hacc : ∀ c ∈ acc, 0 < c.length) :
    ∀ c ∈ events.foldl ondataavailable acc, 0 < c.length := by
  induction events generalizing acc with
  | nil => exact hacc
  | cons e es ih =>
      intro c hc
      refine ih (ondataavailable acc e) ?_ c hc
      intro c' hc'
      unfold ondataavailable at hc'
      split_ifs at hc' with h
      · rcases List.mem_append.mp hc' with h1 | h1
        · exact hacc c' h1
        · rw [List.mem_singleton.mp h1]
          exact h
      · exact hacc c' hc'

/-- C6: confirmed.  A capture whose accumulated chunk list is empty when
recording stops ends as the empty-capture failure, never as a completed job;
and any artifact a completed job does produce is nonempty, because only
chunks of positive size are ever accumulated. -/
theorem empty_capture_fails (events : List (List ℕ)) :
    (events.foldl ondataavailable [] = [] →
      onstopResult (events.foldl ondataavailable []) = .failedEmptyCapture) ∧
      ∀ a, onstopResult (events.foldl ondataavailable []) = .done a → 0 < a.length := by
  constructor
  · intro h
    rw [h]
    rfl
  · intro a
    have hpos := ondataavailable_pos events []
      (by intro c hc; exact absurd hc (List.not_mem_nil c))
    unfold onstopResult
    split_ifs with h
    · intro ha
      cases ha
    · intro ha
      cases hc : events.foldl ondataavailable [] with
      | nil =>
          rw [hc] at h
          exact absurd rfl h
      | cons c cs =>
          rw [hc] at ha
          injection ha with ha2
          rw [← ha2, List.flatten_cons, List.length_append]
          have := hpos c (by rw [hc]; exact List.mem_cons_self c cs)
          omega

/-- Witness for the C6 theorem: a run with only an empty data event fails as
EmptyCapture, and a run with one nonempty chunk yields a nonempty artifact. -/
theorem empty_capture_fails_witness :
    onstopResult (([[]] : List (List ℕ)).foldl ondataavailable []) = .failedEmptyCapture ∧
      0 < ([7] : List ℕ).length :=
  ⟨(empty_capture_fails [[]]).1 rfl, (empty_capture_fails [[7]]).2 [7] rfl⟩

/-- The progress updates DownloadOptions performs, one constructor per
setProcessingProgress call site: start of processing, a progress-interval
tick, the two onstop branches, the onerror handler, and the catch handler. -/
inductive ProgressUpdate
  | startCapture
  | tick (elapsed videoStartTime videoEndTime : ℚ)
  | stopWithChunks
  | stopEmpty
  | recorderError
  | processCatch

/-- The value each update writes: 0 at start and on every failure path,
Math.min((elapsed / duration) * 100, 99) on a tick with duration =
videoEndTime - videoStartTime, and 100 only in the nonempty branch of
onstop. -/
def progressValue : ProgressUpdate → ℚ
  | .startCapture => 0
  | .tick elapsed videoStartTime videoEndTime =>
      min (elapsed / (videoEndTime - videoStartTime) * 100) 99
  | .stopWithChunks => 100
  | .stopEmpty => 0
  | .recorderError => 0
  | .processCatch => 0

/-- Whether the update is the one that completes the job: the nonempty onstop
branch, which assembles the blob and publishes the output URL. -/
def completesJob : ProgressUpdate → Bool
  | .stopWithChunks => true
  | _ => false

/-- C7: confirmed.  A recording tick writes exactly
min(99, 100 * elapsed / (end - start)), hence never more than 99, and the
only progress update that writes 100 is the one that completes the job. -/
theorem progress_capped :
    (∀ elapsed videoStartTime videoEndTime : ℚ,
      progressValue (.tick elapsed videoStartTime videoEndTime) =
        min 99 (100 * elapsed / (videoEndTime - videoStartTime)) ∧
      progressValue (.tick elapsed videoStartTime videoEndTime) ≤ 99) ∧
      ∀ u, progressValue u = 100 → completesJob u = true := by
  constructor
  · intro elapsed videoStartTime videoEndTime
    constructor
    · simp only [progressValue]
      rw [min_comm]
      congr 1
      ring
    · exact min_le_right _ _
  · intro u hu
    cases u
    case stopWithChunks => rfl
    case tick elapsed videoStartTime videoEndTime =>
      have h99 : progressValue (.tick elapsed videoStartTime videoEndTime) ≤ 99 :=
        min_le_right _ _
      rw [hu] at h99
      norm_num at h99
    all_goals simp only [progressValue] at hu
    all_goals norm_num at hu

/-- Witness for the C7 theorem: the update writing 100 is the completing one. -/
theorem progress_capped_witness : completesJob .stopWithChunks = true :=
  progress_capped.2 .stopWithChunks rfl

/-- Whether the recorder of processVideo is still recording, as a function of
the capture range, the elapsed wall-clock milliseconds, and the playback
position in seconds.  The only stop mechanism the source registers is the
setTimeout at (videoEndTime - videoStartTime) * 1000 ms; no listener watches
the playback position, so the position argument is ignored. -/
def recorderRecording (videoStartTime videoEndTime elapsedMs : ℚ)
    (_posSeconds : ℚ) : Bool :=
  decide (elapsedMs < (videoEndTime - videoStartTime) * 1000)

/-- C8: counterexample.  For the range from 10 to 40, at 5000 ms elapsed with
the playback position already at range.end = 40, the recorder is still
recording: reaching the end position does not stop the encoder. -/
theorem stop_condition_counterexample :
    recorderRecording 10 40 5000 40 = true := by
  simp only [recorderRecording, decide_eq_true_eq]
  norm_num

/-- C8: amended.  Recording ends solely through the wall-clock timeout:
whether the recorder is recording is independent of the playback position, it
is still recording strictly before span * 1000 ms, and it is stopped from
span * 1000 ms on. -/
theorem recording_stop_only_timeout :
    (∀ videoStartTime videoEndTime elapsedMs p q : ℚ,
      recorderRecording videoStartTime videoEndTime elapsedMs p =
        recorderRecording videoStartTime videoEndTime elapsedMs q) ∧
      (∀ videoStartTime videoEndTime elapsedMs p : ℚ,
        elapsedMs < (videoEndTime - videoStartTime) * 1000 →
        recorderRecording videoStartTime videoEndTime elapsedMs p = true) ∧
      ∀ videoStartTime videoEndTime elapsedMs p : ℚ,
        (videoEndTime - videoStartTime) * 1000 ≤ elapsedMs →
        recorderRecording videoStartTime videoEndTime elapsedMs p = false := by
  refine ⟨fun _ _ _ _ _ => rfl, ?_, ?_⟩
  · intro videoStartTime videoEndTime elapsedMs p h
    exact decide_eq_true h
  · intro videoStartTime videoEndTime elapsedMs p h
    exact decide_eq_false (not_lt.mpr h)

/-- Witness for the C8 theorem: at exactly 30000 ms the 10-to-40 capture has
stopped. -/
theorem recording_stop_only_timeout_witness :
    recorderRecording 10 40 30000 15 = false :=
  recording_stop_only_timeout.2.2 10 40 30000 15 (by norm_num)

/-- The observable state of the source video element. -/
structure VideoState where
  paused : Bool
  currentTime : ℚ
  muted : Bool
deriving DecidableEq

/-- processVideo before recording: video.currentTime = videoStartTime and
video.muted = true. -/
def seekAndMute (videoStartTime : ℚ) (v : VideoState) : VideoState :=
  { v with currentTime := videoStartTime, muted := true }

/-- mediaRecorder.onerror: pause, reset the position to the start, unmute. -/
def onerrorCleanup (videoStartTime : ℚ) (_v : VideoState) : VideoState :=
  ⟨true, videoStartTime, false⟩

/-- The play-failure handler: stops the recorder and unmutes; it performs no
pause or reposition of its own. -/
def playFailureCleanup (v : VideoState) : VideoState :=
  { v with muted := false }

/-- The catch handler of processVideo: resets the processing flags and alerts
but performs no operation on the video element. -/
def catchCleanup (v : VideoState) : VideoState :=
  v

/-- The recording-timeout handler: stop the recorder, pause, reset the
position, unmute. -/
def timeoutCleanup (videoStartTime : ℚ) (_v : VideoState) : VideoState :=
  ⟨true, videoStartTime, false⟩

/-- The empty-chunks branch of onstop returns before the video reset that the
success branch performs: no operation on the video element. -/
def onstopEmptyCleanup (v : VideoState) : VideoState :=
  v

/-- Playback during recording: not paused, at position p. -/
def playingAt (p : ℚ) (v : VideoState) : VideoState :=
  { v with paused := false, currentTime := p }

/-- The failure paths of a capture job, carrying the playback position at the
moment of failure where one exists. -/
inductive FailurePath
  | unsupportedCodec
  | playFailure
  | recorderError (p : ℚ)
  | emptyCapture (p : ℚ)

/-- The video-element state after each failure path of processVideo runs to
completion, composed from the individual handler steps.  The unsupported
codec throw happens after seekAndMute and lands in the catch handler; the
play failure unmutes and throws (the element stays paused since playback
never started); a recorder error during playback runs the onerror cleanup;
an empty capture is stopped by the timeout handler, whose cleanup runs before
the empty onstop branch returns. -/
def failureFinalState (videoStartTime : ℚ) (v0 : VideoState) : FailurePath → VideoState
  | .unsupportedCodec => catchCleanup (seekAndMute videoStartTime v0)
  | .playFailure =>
      catchCleanup (playFailureCleanup { seekAndMute videoStartTime v0 with paused := true })
  | .recorderError p =>
      onerrorCleanup videoStartTime (playingAt p (seekAndMute videoStartTime v0))
  | .emptyCapture p =>
      onstopEmptyCleanup (timeoutCleanup videoStartTime (playingAt p (seekAndMute videoStartTime v0)))

/-- C9: counterexample.  When WebM/VP8 support is missing the throw happens
after the video has been muted, and the catch handler performs no video
cleanup: this failure path ends with the video still muted. -/
theorem failure_cleanup_counterexample :
    (failureFinalState 10 ⟨true, 0, false⟩ .unsupportedCodec).muted = true :=
  rfl

/-- C9: amended.  The recorder-error, play-failure and empty-capture failure
paths end with the video paused, repositioned to the range start and unmuted;
but the unsupported-codec path ends still muted, because its failure reaches
only the catch handler, which does not touch the video element. -/
theorem failure_cleanup_paths (videoStartTime p : ℚ) (v0 : VideoState) :
    failureFinalState videoStartTime v0 (.recorderError p) = ⟨true, videoStartTime, false⟩ ∧
      failureFinalState videoStartTime v0 .playFailure = ⟨true, videoStartTime, false⟩ ∧
      failureFinalState videoStartTime v0 (.emptyCapture p) = ⟨true, videoStartTime, false⟩ ∧
      failureFinalState videoStartTime v0 .unsupportedCodec = ⟨v0.paused, videoStartTime, true⟩ :=
  ⟨rfl, rfl, rfl, rfl⟩

/-- The initial VideoPlayer selection state: useState(0) for the start,
useState(90) for the end, duration 0 before metadata arrives. -/
def initialRangeState : RangeState :=
  ⟨0, 90, 0⟩

/-- handleMetadataLoaded: record the duration, set the default end to
Math.min(90, duration), and report (0, defaultEnd) through onClipSelected.
Returns the new state and the reported pair. -/
def handleMetadataLoaded (s : RangeState) (duration : ℚ) : RangeState × ℚ × ℚ :=
  let defaultEnd := min 90 duration
  ({ s with videoDuration := duration, selectionEnd := defaultEnd }, 0, defaultEnd)

/-- The session clip state held by App. -/
structure AppClipState where
  clipStartTime : ℚ
  clipEndTime : ℚ
deriving DecidableEq

/-- App.handleClipSelected: store the reported pair as the session clip. -/
def handleClipSelected (startTime endTime : ℚ) : AppClipState :=
  ⟨startTime, endTime⟩

/-- C10: confirmed.  On metadata load from the initial state the selection
becomes exactly [0, min(90, duration)]: the end is the full duration for
sources shorter than 90 seconds and 90 otherwise, and the same pair is
reported through onClipSelected and stored by the session. -/
theorem metadata_initializes_selection (duration : ℚ) :
    ((handleMetadataLoaded initialRangeState duration).1.selectionStart = 0 ∧
      (handleMetadataLoaded initialRangeState duration).1.selectionEnd = min 90 duration ∧
      (handleMetadataLoaded initialRangeState duration).2 = (0, min 90 duration)) ∧
      (duration < 90 →
        (handleMetadataLoaded initialRangeState duration).1.selectionEnd = duration) ∧
      (90 ≤ duration →
        (handleMetadataLoaded initialRangeState duration).1.selectionEnd = 90) ∧
      handleClipSelected (handleMetadataLoaded initialRangeState duration).2.1
          (handleMetadataLoaded initialRangeState duration).2.2 =
        ⟨0, min 90 duration⟩ := by
  refine ⟨⟨rfl, rfl, rfl⟩, ?_, ?_, rfl⟩
  · intro h
    simp only [handleMetadataLoaded]
    exact min_eq_right (le_of_lt h)
  · intro h
    simp only [handleMetadataLoaded]
    exact min_eq_left h

/-- Witness for the C10 theorem at a short and a long source. -/
theorem metadata_initializes_selection_witness :
    (handleMetadataLoaded initialRangeState 30).1.selectionEnd = 30 ∧
      (handleMetadataLoaded initialRangeState 120).1.selectionEnd = 90 :=
  ⟨(metadata_initializes_selection 30).2.1 (by norm_num),
    (metadata_initializes_selection 120).2.2.1 (by norm_num)⟩

end Vin
